import Mathlib

/-!
Verification of the CUDA adapter command-buffer subsystem
(`source/adapters/cuda/command_buffer.cpp`).

The development shallowly embeds the recording state of a command buffer:
the growing CUDA graph (a list of nodes, each with a kind and a dependency
list of node indices), the sync-point registry (an association list from
sync-point ids to node indices together with the `NextSyncPoint` counter),
the dual external/internal reference counts, and the ordered collection of
command handles.  Exception-based early returns in the C++ are modelled
with `Except`; CUDA driver calls that add graph nodes are modelled as pure
appends to the node list (backend failures are out of scope).  Kernel and
memory objects are carried as small records of the fields the code reads.
-/

/-- Result codes used by the command-buffer paths under study
(`ur_result_t`, restricted to the constructors these functions return). -/
inductive UrResult where
  | Success
  | InvalidValue
  | InvalidSize
  | InvalidOperation
  | InvalidWorkDimension
  | InvalidKernel
  deriving DecidableEq, Repr

/-- Sync points are buffer-scoped identifiers
(`ur_exp_command_buffer_sync_point_t`). -/
abbrev SyncPoint := Nat

/-- Graph nodes are identified by their index in the buffer's node list
(models `CUgraphNode`). -/
abbrev NodeId := Nat

/-- `CUDA_MEMSET_NODE_PARAMS` fields set by `enqueueCommandBufferFillHelper`. -/
structure MemsetParams where
  dst : Nat
  elementSize : Nat
  height : Nat
  pitch : Nat
  value : Nat
  width : Nat
  deriving DecidableEq, Repr

/-- `CUDA_KERNEL_NODE_PARAMS` fields set by the kernel-launch append and the
update path. -/
structure KernelNodeParams where
  func : Nat
  gridDimX : Nat
  gridDimY : Nat
  gridDimZ : Nat
  blockDimX : Nat
  blockDimY : Nat
  blockDimZ : Nat
  sharedMemBytes : Nat
  deriving DecidableEq, Repr

/-- The kinds of CUDA graph node the command-buffer code creates. -/
inductive NodeKind where
  | kernelNode (p : KernelNodeParams)
  | memsetNode (p : MemsetParams)
  | memcpyNode (widthInBytes : Nat)
  | emptyNode
  deriving DecidableEq, Repr

/-- One node of the CUDA graph: its kind and its dependencies
(indices of earlier nodes). -/
structure GraphNode where
  kind : NodeKind
  deps : List NodeId
  deriving DecidableEq, Repr

/-- The fields of `ur_kernel_handle_t_` read by the kernel-launch append:
identity, owning context, captured local-memory size. -/
structure Kernel where
  id : Nat
  context : Nat
  localSize : Nat
  deriving DecidableEq, Repr

/-- The field of a `BufferMem` memory object read by the append paths:
its allocated size in bytes. -/
structure BufferMem where
  size : Nat
  deriving DecidableEq, Repr

/-- `ur_exp_command_buffer_command_handle_t_`: per-kernel-launch-node record
enabling later in-place updates.  The geometry arrays are the fixed
3-element, zero-padded storage of the source; the local work size is kept
as an `Option` so that the nullness of the recorded local size (the
source's `isNullLocalSize`) is represented directly. -/
structure CommandHandle where
  kernel : Nat
  node : NodeId
  params : KernelNodeParams
  workDim : Nat
  globalWorkOffset : List Nat
  globalWorkSize : List Nat
  localWorkSize : Option (List Nat)
  validKernelHandles : List Nat
  refCountInternal : Nat
  refCountExternal : Nat
  alive : Bool
  deriving DecidableEq, Repr

/-- `ur_exp_command_buffer_handle_t_`: the aggregate recording state.
`alive` models whether the object has been `delete`d. -/
structure CmdBuffer where
  context : Nat
  device : Nat
  isUpdatable : Bool
  cudaGraph : List GraphNode
  cudaGraphExec : Bool
  refCountInternal : Nat
  refCountExternal : Nat
  nextSyncPoint : Nat
  syncPoints : List (SyncPoint × NodeId)
  commandHandles : List CommandHandle
  alive : Bool
  deriving DecidableEq, Repr

/-- Modelled from the spec: the command-buffer header (not among the
sources) defines the sync-point registry accessor.  "Sync points are
unique, strictly increasing integers starting at 0, assigned by the
registry on every successful append": `addSyncPoint` registers the node
under `NextSyncPoint` and post-increments the counter. -/
def CmdBuffer.addSyncPoint (b : CmdBuffer) (node : NodeId) :
    CmdBuffer × SyncPoint :=
  ({ b with
      syncPoints := b.syncPoints ++ [(b.nextSyncPoint, node)],
      nextSyncPoint := b.nextSyncPoint + 1 },
   b.nextSyncPoint)

/-- Lookup of a sync point in the registry (the `SyncPoints.find` of the
source's `getNodesFromSyncPoints`). -/
def CmdBuffer.findSyncPoint (b : CmdBuffer) (sp : SyncPoint) : Option NodeId :=
  (b.syncPoints.find? (fun p => p.1 == sp)).map (fun p => p.2)

/-- `getNodesFromSyncPoints`: resolve every sync point of the wait list to
its graph node; an unknown sync point aborts with `InvalidValue` before
any graph mutation. -/
def getNodesFromSyncPoints (b : CmdBuffer) :
    List SyncPoint → Except UrResult (List NodeId)
  | [] => .ok []
  | sp :: rest =>
    match b.findSyncPoint sp with
    | some node =>
      match getNodesFromSyncPoints b rest with
      | .ok restNodes => .ok (node :: restNodes)
      | .error e => .error e
    | none => .error .InvalidValue

/-- Models `cuGraphAddMemsetNode`: appends a memset node to the buffer's
graph and returns its node id. -/
def cuGraphAddMemsetNode (b : CmdBuffer) (deps : List NodeId)
    (p : MemsetParams) : CmdBuffer × NodeId :=
  ({ b with cudaGraph := b.cudaGraph ++ [⟨.memsetNode p, deps⟩] },
   b.cudaGraph.length)

/-- Models `cuGraphAddKernelNode`. -/
def cuGraphAddKernelNode (b : CmdBuffer) (deps : List NodeId)
    (p : KernelNodeParams) : CmdBuffer × NodeId :=
  ({ b with cudaGraph := b.cudaGraph ++ [⟨.kernelNode p, deps⟩] },
   b.cudaGraph.length)

/-- Models `cuGraphAddMemcpyNode` (the copy descriptor is reduced to its
byte width; the claims do not inspect the other descriptor fields). -/
def cuGraphAddMemcpyNode (b : CmdBuffer) (deps : List NodeId)
    (widthInBytes : Nat) : CmdBuffer × NodeId :=
  ({ b with cudaGraph := b.cudaGraph ++ [⟨.memcpyNode widthInBytes, deps⟩] },
   b.cudaGraph.length)

/-- Models `cuGraphAddEmptyNode`. -/
def cuGraphAddEmptyNode (b : CmdBuffer) (deps : List NodeId) :
    CmdBuffer × NodeId :=
  ({ b with cudaGraph := b.cudaGraph ++ [⟨.emptyNode, deps⟩] },
   b.cudaGraph.length)

/-- Read `n` little-endian bytes of a pattern starting at byte `i`
(the source's `*static_cast` of 1, 2 or 4 bytes of the pattern). -/
def readBytes (pattern : List Nat) (i n : Nat) : Nat :=
  (List.range n).foldr (fun j acc => pattern.getD (i + j) 0 + 256 * acc) 0

/-- `urCommandBufferCreateExp`: fresh buffer, ref counts 1/1, empty graph,
sync-point counter 0 (constructor at `command_buffer.cpp:47`). -/
def urCommandBufferCreateExp (ctx dev : Nat) (isUpdatable : Bool) :
    CmdBuffer :=
  { context := ctx, device := dev, isUpdatable := isUpdatable,
    cudaGraph := [], cudaGraphExec := false,
    refCountInternal := 1, refCountExternal := 1,
    nextSyncPoint := 0, syncPoints := [], commandHandles := [],
    alive := true }

/-- The per-byte tail of the large-pattern fill: the loop of
`enqueueCommandBufferFillHelper` from `Step = 4` upwards.  One 1-byte
memset node is added per remaining byte offset of the pattern, each
depending only on the previous node of the chain; returns the final
(leaf) node.  Structural recursion is on the number of remaining steps. -/
def fillChainSteps (dstPtr : Nat) (pattern : List Nat)
    (size numberOfSteps : Nat) :
    Nat → Nat → CmdBuffer → NodeId → CmdBuffer × NodeId
  | _, 0, b, prev => (b, prev)
  | step, remaining + 1, b, prev =>
    let value := pattern.getD step 0
    let offsetPtr := dstPtr + step
    let nodeParamsStep : MemsetParams :=
      { dst := offsetPtr, elementSize := 1,
        height := size / numberOfSteps, pitch := numberOfSteps,
        value := value, width := 1 }
    let (b, node) := cuGraphAddMemsetNode b [prev] nodeParamsStep
    fillChainSteps dstPtr pattern size numberOfSteps
      (step + 1) remaining b node

/-- `enqueueCommandBufferFillHelper`: resolves the wait list, then for a
1/2/4-byte pattern adds a single strided memset node; for a larger pattern
adds a 4-byte-element node covering `size / 4` units followed by the
1-byte chain (`Step = 4` to `NumberOfSteps - 1`), and registers the final
node under a fresh sync point. -/
def enqueueCommandBufferFillHelper (b : CmdBuffer) (dstPtr : Nat)
    (pattern : List Nat) (patternSize size : Nat)
    (wl : List SyncPoint) : Except UrResult (CmdBuffer × SyncPoint) :=
  match getNodesFromSyncPoints b wl with
  | .error e => .error e
  | .ok depsList =>
    if patternSize == 1 || patternSize == 2 || patternSize == 4 then
      let nodeParams : MemsetParams :=
        { dst := dstPtr, elementSize := patternSize,
          height := size / patternSize, pitch := patternSize,
          value := readBytes pattern 0 patternSize, width := 1 }
      let (b, graphNode) := cuGraphAddMemsetNode b depsList nodeParams
      let (b, sp) := b.addSyncPoint graphNode
      .ok (b, sp)
    else
      let numberOfSteps := patternSize
      let nodeParamsStepFirst : MemsetParams :=
        { dst := dstPtr, elementSize := 4, height := size / 4,
          pitch := 4, value := readBytes pattern 0 4, width := 1 }
      let (b, graphNode) := cuGraphAddMemsetNode b depsList nodeParamsStepFirst
      let (b, graphNode) := fillChainSteps dstPtr pattern size numberOfSteps
        4 (numberOfSteps - 4) b graphNode
      let (b, sp) := b.addSyncPoint graphNode
      .ok (b, sp)

/-- Modelled from the spec: `setKernelParams` lives in the adapter's
enqueue file (not among the sources).  It computes the block/grid
decomposition from global/local work size; the default local size is a
warp-sized one-dimensional block when the caller supplies none. -/
def setKernelParams (workDim : Nat) (gws : List Nat)
    (lws : Option (List Nat)) : List Nat × List Nat :=
  let threadsPerBlock :=
    match lws with
    | some l => (List.range 3).map (fun i => if i < workDim then l.getD i 1 else 1)
    | none => [32, 1, 1]
  let blocksPerGrid := (List.range 3).map (fun i =>
    let g := if i < workDim then gws.getD i 1 else 1
    let t := threadsPerBlock.getD i 1
    if t == 0 then 0 else (g + t - 1) / t)
  (threadsPerBlock, blocksPerGrid)

/-- Zero-padded fixed 3-element geometry storage: the first `workDim`
entries are copied from the caller's array, entries above `workDim` are
zero-filled (the `memcpy`/`memset` pair of the command-handle
constructor). -/
def pad3 (l : List Nat) (workDim : Nat) : List Nat :=
  (List.range 3).map (fun i => if i < workDim then l.getD i 0 else 0)

/-- The `CUDA_KERNEL_NODE_PARAMS` structure the kernel-launch append fills
from the launch decomposition and the kernel's captured local-memory
size. -/
def kernelNodeParamsOf (k : Kernel) (workDim : Nat) (gws : List Nat)
    (lws : Option (List Nat)) : KernelNodeParams :=
  let (threadsPerBlock, blocksPerGrid) := setKernelParams workDim gws lws
  { func := k.id,
    gridDimX := blocksPerGrid.getD 0 1,
    gridDimY := blocksPerGrid.getD 1 1,
    gridDimZ := blocksPerGrid.getD 2 1,
    blockDimX := threadsPerBlock.getD 0 1,
    blockDimY := threadsPerBlock.getD 1 1,
    blockDimZ := threadsPerBlock.getD 2 1,
    sharedMemBytes := k.localSize }

/-- The `ur_exp_command_buffer_command_handle_t_` constructor
(`command_buffer.cpp:74`): captures the kernel, node reference, node
parameters, work dimension and zero-padded geometry arrays; the valid
kernel set holds the primary kernel and the alternatives; both ref counts
start at 1 (the buffer-side internal increment happens at the call
site). -/
def mkCommandHandle (k : Kernel) (node : NodeId) (params : KernelNodeParams)
    (workDim : Nat) (gwOffset gws : List Nat) (lws : Option (List Nat))
    (alternatives : List Nat) : CommandHandle :=
  { kernel := k.id, node := node, params := params, workDim := workDim,
    globalWorkOffset := pad3 gwOffset workDim,
    globalWorkSize := pad3 gws workDim,
    localWorkSize := lws.map (fun l => pad3 l workDim),
    validKernelHandles := k.id :: alternatives,
    refCountInternal := 1, refCountExternal := 1, alive := true }

/-- `urCommandBufferAppendKernelLaunchExp`: validates the kernel's context,
the work dimension and the kernel alternatives, resolves the wait list,
then either records an empty node (when the first element of the global
work size is zero) or computes the launch decomposition, adds one kernel
node, registers the sync point, and unconditionally allocates a
CommandHandle (internal ref count 2 after the explicit increment) that
also increments the buffer's internal ref count. -/
def urCommandBufferAppendKernelLaunchExp (b : CmdBuffer) (k : Kernel)
    (workDim : Nat) (gwOffset gws : List Nat) (lws : Option (List Nat))
    (alternatives : List Nat) (wl : List SyncPoint) :
    Except UrResult (CmdBuffer × SyncPoint) :=
  if !(b.context == k.context) then .error .InvalidKernel
  else if !(workDim > 0) then .error .InvalidWorkDimension
  else if !(workDim < 4) then .error .InvalidWorkDimension
  else if alternatives.any (fun a => a == k.id) then .error .InvalidValue
  else
    match getNodesFromSyncPoints b wl with
    | .error e => .error e
    | .ok depsList =>
      if gws.getD 0 0 == 0 then
        let (b, graphNode) := cuGraphAddEmptyNode b depsList
        let (b, sp) := b.addSyncPoint graphNode
        .ok (b, sp)
      else
        let nodeParams := kernelNodeParamsOf k workDim gws lws
        let (b, graphNode) := cuGraphAddKernelNode b depsList nodeParams
        let (b, sp) := b.addSyncPoint graphNode
        let newCommand :=
          mkCommandHandle k graphNode nodeParams workDim gwOffset gws lws
            alternatives
        let b := { b with refCountInternal := b.refCountInternal + 1 }
        let newCommand :=
          { newCommand with
              refCountInternal := newCommand.refCountInternal + 1 }
        let b := { b with commandHandles := b.commandHandles ++ [newCommand] }
        .ok (b, sp)

/-- `urCommandBufferAppendUSMMemcpyExp`: resolve wait list, add one memcpy
node, register the sync point. -/
def urCommandBufferAppendUSMMemcpyExp (b : CmdBuffer) (size : Nat)
    (wl : List SyncPoint) : Except UrResult (CmdBuffer × SyncPoint) :=
  match getNodesFromSyncPoints b wl with
  | .error e => .error e
  | .ok depsList =>
    let (b, graphNode) := cuGraphAddMemcpyNode b depsList size
    let (b, sp) := b.addSyncPoint graphNode
    .ok (b, sp)

/-- `urCommandBufferAppendMemBufferCopyExp`: bounds-checks both memory
objects before resolving the wait list, then adds one memcpy node. -/
def urCommandBufferAppendMemBufferCopyExp (b : CmdBuffer)
    (srcMem dstMem : BufferMem) (srcOffset dstOffset size : Nat)
    (wl : List SyncPoint) : Except UrResult (CmdBuffer × SyncPoint) :=
  if !(size + dstOffset ≤ dstMem.size) then .error .InvalidSize
  else if !(size + srcOffset ≤ srcMem.size) then .error .InvalidSize
  else
    match getNodesFromSyncPoints b wl with
    | .error e => .error e
    | .ok depsList =>
      let (b, graphNode) := cuGraphAddMemcpyNode b depsList size
      let (b, sp) := b.addSyncPoint graphNode
      .ok (b, sp)

/-- `urCommandBufferAppendMemBufferCopyRectExp`: resolve wait list, add one
memcpy node built from the rectangular descriptor. -/
def urCommandBufferAppendMemBufferCopyRectExp (b : CmdBuffer)
    (regionWidth : Nat) (wl : List SyncPoint) :
    Except UrResult (CmdBuffer × SyncPoint) :=
  match getNodesFromSyncPoints b wl with
  | .error e => .error e
  | .ok depsList =>
    let (b, graphNode) := cuGraphAddMemcpyNode b depsList regionWidth
    let (b, sp) := b.addSyncPoint graphNode
    .ok (b, sp)

/-- `urCommandBufferAppendMemBufferWriteExp`. -/
def urCommandBufferAppendMemBufferWriteExp (b : CmdBuffer) (size : Nat)
    (wl : List SyncPoint) : Except UrResult (CmdBuffer × SyncPoint) :=
  match getNodesFromSyncPoints b wl with
  | .error e => .error e
  | .ok depsList =>
    let (b, graphNode) := cuGraphAddMemcpyNode b depsList size
    let (b, sp) := b.addSyncPoint graphNode
    .ok (b, sp)

/-- `urCommandBufferAppendMemBufferReadExp`. -/
def urCommandBufferAppendMemBufferReadExp (b : CmdBuffer) (size : Nat)
    (wl : List SyncPoint) : Except UrResult (CmdBuffer × SyncPoint) :=
  match getNodesFromSyncPoints b wl with
  | .error e => .error e
  | .ok depsList =>
    let (b, graphNode) := cuGraphAddMemcpyNode b depsList size
    let (b, sp) := b.addSyncPoint graphNode
    .ok (b, sp)

/-- `urCommandBufferAppendMemBufferWriteRectExp`. -/
def urCommandBufferAppendMemBufferWriteRectExp (b : CmdBuffer)
    (regionWidth : Nat) (wl : List SyncPoint) :
    Except UrResult (CmdBuffer × SyncPoint) :=
  match getNodesFromSyncPoints b wl with
  | .error e => .error e
  | .ok depsList =>
    let (b, graphNode) := cuGraphAddMemcpyNode b depsList regionWidth
    let (b, sp) := b.addSyncPoint graphNode
    .ok (b, sp)

/-- `urCommandBufferAppendMemBufferReadRectExp`. -/
def urCommandBufferAppendMemBufferReadRectExp (b : CmdBuffer)
    (regionWidth : Nat) (wl : List SyncPoint) :
    Except UrResult (CmdBuffer × SyncPoint) :=
  match getNodesFromSyncPoints b wl with
  | .error e => .error e
  | .ok depsList =>
    let (b, graphNode) := cuGraphAddMemcpyNode b depsList regionWidth
    let (b, sp) := b.addSyncPoint graphNode
    .ok (b, sp)

/-- `urCommandBufferAppendUSMPrefetchExp`: not supported by CUDA graphs;
an empty node preserves dependencies (size and flag arguments ignored). -/
def urCommandBufferAppendUSMPrefetchExp (b : CmdBuffer)
    (wl : List SyncPoint) : Except UrResult (CmdBuffer × SyncPoint) :=
  match getNodesFromSyncPoints b wl with
  | .error e => .error e
  | .ok depsList =>
    let (b, graphNode) := cuGraphAddEmptyNode b depsList
    let (b, sp) := b.addSyncPoint graphNode
    .ok (b, sp)

/-- `urCommandBufferAppendUSMAdviseExp`: same empty-node implementation. -/
def urCommandBufferAppendUSMAdviseExp (b : CmdBuffer)
    (wl : List SyncPoint) : Except UrResult (CmdBuffer × SyncPoint) :=
  match getNodesFromSyncPoints b wl with
  | .error e => .error e
  | .ok depsList =>
    let (b, graphNode) := cuGraphAddEmptyNode b depsList
    let (b, sp) := b.addSyncPoint graphNode
    .ok (b, sp)

/-- The source's power-of-two test:
`(patternSize & (patternSize - 1)) == 0 && patternSize > 0`. -/
def patternSizeIsValid (patternSize : Nat) : Bool :=
  ((patternSize &&& (patternSize - 1)) == 0) && (patternSize > 0)

/-- `urCommandBufferAppendMemBufferFillExp`: validates that the offset OR
the size is a multiple of the pattern size, the pattern is non-null
(`none` models a null pattern pointer) and the pattern size is a positive
power of two, then delegates to the fill helper with the device pointer
at `offset`. -/
def urCommandBufferAppendMemBufferFillExp (b : CmdBuffer) (mem : BufferMem)
    (pattern : Option (List Nat)) (patternSize offset size : Nat)
    (wl : List SyncPoint) : Except UrResult (CmdBuffer × SyncPoint) :=
  let argsAreMultiplesOfPatternSize :=
    (offset % patternSize == 0) || (size % patternSize == 0)
  let patternIsValid := pattern.isSome
  if !(argsAreMultiplesOfPatternSize && patternIsValid &&
        patternSizeIsValid patternSize) then .error .InvalidSize
  else
    enqueueCommandBufferFillHelper b offset (pattern.getD []) patternSize
      size wl

/-- `urCommandBufferAppendUSMFillExp`: validates only that the pattern is
non-null and the pattern size is a positive power of two (no multiple
check), then delegates to the fill helper. -/
def urCommandBufferAppendUSMFillExp (b : CmdBuffer) (ptr : Nat)
    (pattern : Option (List Nat)) (patternSize size : Nat)
    (wl : List SyncPoint) : Except UrResult (CmdBuffer × SyncPoint) :=
  let patternIsValid := pattern.isSome
  if !(patternIsValid && patternSizeIsValid patternSize) then
    .error .InvalidSize
  else
    enqueueCommandBufferFillHelper b ptr (pattern.getD []) patternSize
      size wl

/-- Modelled from the spec together with `commandBufferReleaseInternal`
(`command_buffer.cpp:22`): decrement the buffer's internal count; if it
did not reach zero nothing else happens, otherwise the buffer is
destroyed (`delete`, modelled by clearing `alive`). -/
def commandBufferReleaseInternal (b : CmdBuffer) : CmdBuffer :=
  let b := { b with refCountInternal := b.refCountInternal - 1 }
  if b.refCountInternal != 0 then b
  else { b with alive := false }

/-- `commandHandleReleaseInternal` (`command_buffer.cpp:33`): decrement the
handle's internal count; when it reaches zero, release one internal
reference of the parent buffer and destroy the handle. -/
def commandHandleReleaseInternal (c : CommandHandle) (b : CmdBuffer) :
    CommandHandle × CmdBuffer :=
  let c := { c with refCountInternal := c.refCountInternal - 1 }
  if c.refCountInternal != 0 then (c, b)
  else ({ c with alive := false }, commandBufferReleaseInternal b)

/-- The loop of `urCommandBufferReleaseExp` over the buffer's command
handles, threading the buffer's counters through each internal release. -/
def releaseAllHandles :
    List CommandHandle → CmdBuffer → List CommandHandle × CmdBuffer
  | [], b => ([], b)
  | c :: rest, b =>
    let (c, b) := commandHandleReleaseInternal c b
    let (rest, b) := releaseAllHandles rest b
    (c :: rest, b)

/-- `urCommandBufferRetainExp`: increments both counters. -/
def urCommandBufferRetainExp (b : CmdBuffer) : CmdBuffer :=
  { b with refCountInternal := b.refCountInternal + 1,
           refCountExternal := b.refCountExternal + 1 }

/-- `urCommandBufferReleaseExp`: decrement the external count; when it
reaches zero, internally release every owned command handle; finally
release one internal reference (which may destroy the buffer). -/
def urCommandBufferReleaseExp (b : CmdBuffer) : CmdBuffer :=
  let b := { b with refCountExternal := b.refCountExternal - 1 }
  if b.refCountExternal == 0 then
    let (hs, b2) := releaseAllHandles b.commandHandles b
    commandBufferReleaseInternal { b2 with commandHandles := hs }
  else
    commandBufferReleaseInternal b

/-- `ur_exp_command_buffer_update_kernel_launch_desc_t`: the fields of the
update descriptor read by validation and application (the three argument
lists act on kernel objects, which live outside the recorded state, and
are omitted). -/
structure UpdateDesc where
  hNewKernel : Nat
  newWorkDim : Nat
  pNewGlobalWorkOffset : Option (List Nat)
  pNewGlobalWorkSize : Option (List Nat)
  pNewLocalWorkSize : Option (List Nat)
  deriving DecidableEq, Repr

/-- Modelled from the spec: the header's `isNullLocalSize` reports whether
the command was recorded without an explicit local work size. -/
def CommandHandle.isNullLocalSize (c : CommandHandle) : Bool :=
  c.localWorkSize.isNone

/-- `validateCommandDesc` (`command_buffer.cpp:873`): the sequence of
checks run before any mutation.  The nested early returns of the source
are linearized into one `if` chain in the same order. -/
def validateCommandDesc (b : CmdBuffer) (c : CommandHandle)
    (d : UpdateDesc) : UrResult :=
  if !b.cudaGraphExec then .InvalidOperation
  else if !b.isUpdatable then .InvalidOperation
  else if d.newWorkDim == 0 && !(c.kernel == d.hNewKernel) then
    .InvalidOperation
  else if d.newWorkDim != 0 && !(d.newWorkDim > 0) then
    .InvalidWorkDimension
  else if d.newWorkDim != 0 && !(d.newWorkDim < 4) then
    .InvalidWorkDimension
  else if d.newWorkDim != 0 &&
      (d.newWorkDim != c.workDim && c.kernel == d.hNewKernel) then
    .InvalidOperation
  else if d.newWorkDim != 0 &&
      (d.pNewLocalWorkSize.isSome && d.pNewGlobalWorkSize.isNone) then
    .InvalidOperation
  else if d.newWorkDim != 0 &&
      (d.pNewLocalWorkSize.isNone != c.isNullLocalSize) then
    .InvalidOperation
  else if !(c.validKernelHandles.contains d.hNewKernel) then
    .InvalidValue
  else .Success

/-- `updateCommand` (`command_buffer.cpp:1011`): overwrite the stored
kernel, then each optionally supplied field (work dimension, global
offset, global size, local size); unspecified fields keep their previous
value.  The geometry setters copy `WorkDim` elements into the fixed
3-element storage (modelled from the spec, the setters live in the missing
header). -/
def updateCommand (c : CommandHandle) (d : UpdateDesc) : CommandHandle :=
  let c := { c with kernel := d.hNewKernel }
  let c := if d.newWorkDim != 0 then { c with workDim := d.newWorkDim } else c
  let c := match d.pNewGlobalWorkOffset with
    | some o => { c with globalWorkOffset := pad3 o c.workDim }
    | none => c
  let c := match d.pNewGlobalWorkSize with
    | some s => { c with globalWorkSize := pad3 s c.workDim }
    | none => c
  let c := match d.pNewLocalWorkSize with
    | some l => { c with localWorkSize := some (pad3 l c.workDim) }
    | none => c
  c

/-- Models `cuGraphExecKernelNodeSetParams`: patches the parameters of one
node of the compiled graph in place.  The compiled executable graph shares
the node list of the recorded graph in this model, so the patch rewrites
the parameters stored at that node index. -/
def cuGraphExecKernelNodeSetParams (b : CmdBuffer) (node : NodeId)
    (p : KernelNodeParams) : CmdBuffer :=
  match b.cudaGraph.get? node with
  | some gn => { b with cudaGraph := b.cudaGraph.set node { gn with kind := .kernelNode p } }
  | none => b

/-- `urCommandBufferUpdateKernelLaunchExp` (`command_buffer.cpp:1037`):
validate, apply the new kernel arguments (a mutation of the kernel object,
outside the recorded state), apply the descriptor to the handle, recompute
the launch decomposition and patch the compiled graph node.  Every
validation error aborts before any mutation of the handle or the graph. -/
def urCommandBufferUpdateKernelLaunchExp (b : CmdBuffer)
    (c : CommandHandle) (d : UpdateDesc) (newKernelLocalSize : Nat) :
    Except UrResult (CmdBuffer × CommandHandle) :=
  match validateCommandDesc b c d with
  | .Success =>
    let c := updateCommand c d
    let (threadsPerBlock, blocksPerGrid) :=
      setKernelParams c.workDim c.globalWorkSize c.localWorkSize
    let params : KernelNodeParams :=
      { func := c.kernel,
        gridDimX := blocksPerGrid.getD 0 1,
        gridDimY := blocksPerGrid.getD 1 1,
        gridDimZ := blocksPerGrid.getD 2 1,
        blockDimX := threadsPerBlock.getD 0 1,
        blockDimY := threadsPerBlock.getD 1 1,
        blockDimZ := threadsPerBlock.getD 2 1,
        sharedMemBytes := newKernelLocalSize }
    let c := { c with params := params }
    let b := cuGraphExecKernelNodeSetParams b c.node params
    .ok (b, c)
  | r => .error r

/-- One `Append*` invocation with its operation-specific parameters
(the wait list is passed separately). -/
inductive AppendOp where
  | kernelLaunch (k : Kernel) (workDim : Nat) (gwOffset gws : List Nat)
      (lws : Option (List Nat)) (alternatives : List Nat)
  | usmMemcpy (size : Nat)
  | memBufferCopy (srcMem dstMem : BufferMem) (srcOffset dstOffset size : Nat)
  | memBufferCopyRect (regionWidth : Nat)
  | memBufferWrite (size : Nat)
  | memBufferRead (size : Nat)
  | memBufferWriteRect (regionWidth : Nat)
  | memBufferReadRect (regionWidth : Nat)
  | usmPrefetch
  | usmAdvise
  | memBufferFill (mem : BufferMem) (pattern : Option (List Nat))
      (patternSize offset size : Nat)
  | usmFill (ptr : Nat) (pattern : Option (List Nat)) (patternSize size : Nat)
  deriving DecidableEq, Repr

/-- Dispatch of one append invocation to the corresponding entry point. -/
def execAppend (b : CmdBuffer) (op : AppendOp) (wl : List SyncPoint) :
    Except UrResult (CmdBuffer × SyncPoint) :=
  match op with
  | .kernelLaunch k workDim gwOffset gws lws alternatives =>
    urCommandBufferAppendKernelLaunchExp b k workDim gwOffset gws lws
      alternatives wl
  | .usmMemcpy size => urCommandBufferAppendUSMMemcpyExp b size wl
  | .memBufferCopy srcMem dstMem srcOffset dstOffset size =>
    urCommandBufferAppendMemBufferCopyExp b srcMem dstMem srcOffset
      dstOffset size wl
  | .memBufferCopyRect regionWidth =>
    urCommandBufferAppendMemBufferCopyRectExp b regionWidth wl
  | .memBufferWrite size => urCommandBufferAppendMemBufferWriteExp b size wl
  | .memBufferRead size => urCommandBufferAppendMemBufferReadExp b size wl
  | .memBufferWriteRect regionWidth =>
    urCommandBufferAppendMemBufferWriteRectExp b regionWidth wl
  | .memBufferReadRect regionWidth =>
    urCommandBufferAppendMemBufferReadRectExp b regionWidth wl
  | .usmPrefetch => urCommandBufferAppendUSMPrefetchExp b wl
  | .usmAdvise => urCommandBufferAppendUSMAdviseExp b wl
  | .memBufferFill mem pattern patternSize offset size =>
    urCommandBufferAppendMemBufferFillExp b mem pattern patternSize offset
      size wl
  | .usmFill ptr pattern patternSize size =>
    urCommandBufferAppendUSMFillExp b ptr pattern patternSize size wl

/-- The operation-specific parameter validation each entry point performs
before the wait list is resolved (kernel launches check the kernel's
context, the work dimension and the alternatives; buffer copies
bounds-check the memory objects; fills check the pattern; the remaining
operations resolve the wait list first). -/
def preValidation (b : CmdBuffer) (op : AppendOp) : Bool :=
  match op with
  | .kernelLaunch k workDim _ _ _ alternatives =>
    (b.context == k.context) && (workDim > 0) && (workDim < 4) &&
      !(alternatives.any (fun a => a == k.id))
  | .memBufferCopy srcMem dstMem srcOffset dstOffset size =>
    (size + dstOffset ≤ dstMem.size : Bool) &&
      (size + srcOffset ≤ srcMem.size : Bool)
  | .memBufferFill _ pattern patternSize offset size =>
    ((offset % patternSize == 0) || (size % patternSize == 0)) &&
      pattern.isSome && patternSizeIsValid patternSize
  | .usmFill _ pattern patternSize _ =>
    pattern.isSome && patternSizeIsValid patternSize
  | _ => true

/-- Run a sequence of append invocations, requiring every one to succeed,
and collect the returned sync points in order. -/
def runAppends (b : CmdBuffer) :
    List (AppendOp × List SyncPoint) → Option (CmdBuffer × List SyncPoint)
  | [] => some (b, [])
  | (op, wl) :: rest =>
    match execAppend b op wl with
    | .ok (b', sp) =>
      match runAppends b' rest with
      | some (b'', sps) => some (b'', sp :: sps)
      | none => none
    | .error _ => none

/-! ## Basic lemmas about the registry and the append operations -/

theorem fillChainSteps_fields (dstPtr : Nat) (pattern : List Nat)
    (size ns : Nat) :
    ∀ (remaining step : Nat) (b : CmdBuffer) (prev : NodeId),
      (fillChainSteps dstPtr pattern size ns step remaining b prev).1.syncPoints
          = b.syncPoints ∧
      (fillChainSteps dstPtr pattern size ns step remaining b prev).1.nextSyncPoint
          = b.nextSyncPoint := by
  intro remaining
  induction remaining with
  | zero => intro step b prev; simp [fillChainSteps]
  | succ r ih =>
    intro step b prev
    simpa [fillChainSteps, cuGraphAddMemsetNode] using ih (step + 1) _ _

theorem enqueueCommandBufferFillHelper_ok_spec (b : CmdBuffer)
    (dstPtr : Nat) (pattern : List Nat) (patternSize size : Nat)
    (wl : List SyncPoint) (b' : CmdBuffer) (sp : SyncPoint)
    (h : enqueueCommandBufferFillHelper b dstPtr pattern patternSize size wl
        = .ok (b', sp)) :
    sp = b.nextSyncPoint ∧
    b'.nextSyncPoint = b.nextSyncPoint + 1 ∧
    ∃ node, b'.syncPoints = b.syncPoints ++ [(b.nextSyncPoint, node)] := by
  simp only [enqueueCommandBufferFillHelper] at h
  split at h
  · exact absurd h (by simp)
  next depsList heq =>
    split at h
    · simp only [cuGraphAddMemsetNode, CmdBuffer.addSyncPoint,
        Except.ok.injEq, Prod.mk.injEq] at h
      obtain ⟨hb, hsp⟩ := h
      subst hb; subst hsp
      exact ⟨rfl, rfl, _, rfl⟩
    · have hf := fillChainSteps_fields dstPtr pattern size patternSize
        (patternSize - 4) 4
        (cuGraphAddMemsetNode b depsList
          { dst := dstPtr, elementSize := 4, height := size / 4, pitch := 4,
            value := readBytes pattern 0 4, width := 1 }).1
        (cuGraphAddMemsetNode b depsList
          { dst := dstPtr, elementSize := 4, height := size / 4, pitch := 4,
            value := readBytes pattern 0 4, width := 1 }).2
      simp only [CmdBuffer.addSyncPoint, Except.ok.injEq,
        Prod.mk.injEq] at h
      obtain ⟨hb, hsp⟩ := h
      subst hb; subst hsp
      obtain ⟨hf1, hf2⟩ := hf
      have h1 : _ = b.syncPoints := hf1
      have h2 : _ = b.nextSyncPoint := hf2
      refine ⟨h2, ?_, ?_⟩
      · simp [h2]
      · exact ⟨_, by simp [h1, h2]; rfl⟩

theorem execAppend_ok_spec (b : CmdBuffer) (op : AppendOp)
    (wl : List SyncPoint) (b' : CmdBuffer) (sp : SyncPoint)
    (h : execAppend b op wl = .ok (b', sp)) :
    sp = b.nextSyncPoint ∧
    b'.nextSyncPoint = b.nextSyncPoint + 1 ∧
    ∃ node, b'.syncPoints = b.syncPoints ++ [(b.nextSyncPoint, node)] := by
  cases op with
  | kernelLaunch k workDim gwOffset gws lws alternatives =>
    simp only [execAppend, urCommandBufferAppendKernelLaunchExp] at h
    split at h
    · exact absurd h (by simp)
    split at h
    · exact absurd h (by simp)
    split at h
    · exact absurd h (by simp)
    split at h
    · exact absurd h (by simp)
    split at h
    · exact absurd h (by simp)
    · split at h
      · simp only [cuGraphAddEmptyNode, CmdBuffer.addSyncPoint,
          Except.ok.injEq, Prod.mk.injEq] at h
        obtain ⟨hb, hsp⟩ := h
        subst hb; subst hsp
        exact ⟨rfl, rfl, _, rfl⟩
      · simp only [cuGraphAddKernelNode, CmdBuffer.addSyncPoint,
          Except.ok.injEq, Prod.mk.injEq] at h
        obtain ⟨hb, hsp⟩ := h
        subst hb; subst hsp
        exact ⟨rfl, rfl, _, rfl⟩
  | usmMemcpy size =>
    simp only [execAppend, urCommandBufferAppendUSMMemcpyExp] at h
    split at h
    · exact absurd h (by simp)
    · simp only [cuGraphAddMemcpyNode, CmdBuffer.addSyncPoint,
        Except.ok.injEq, Prod.mk.injEq] at h
      obtain ⟨hb, hsp⟩ := h
      subst hb; subst hsp
      exact ⟨rfl, rfl, _, rfl⟩
  | memBufferCopy srcMem dstMem srcOffset dstOffset size =>
    simp only [execAppend, urCommandBufferAppendMemBufferCopyExp] at h
    split at h
    · exact absurd h (by simp)
    split at h
    · exact absurd h (by simp)
    · split at h
      · exact absurd h (by simp)
      · simp only [cuGraphAddMemcpyNode, CmdBuffer.addSyncPoint,
          Except.ok.injEq, Prod.mk.injEq] at h
        obtain ⟨hb, hsp⟩ := h
        subst hb; subst hsp
        exact ⟨rfl, rfl, _, rfl⟩
  | memBufferCopyRect regionWidth =>
    simp only [execAppend, urCommandBufferAppendMemBufferCopyRectExp] at h
    split at h
    · exact absurd h (by simp)
    · simp only [cuGraphAddMemcpyNode, CmdBuffer.addSyncPoint,
        Except.ok.injEq, Prod.mk.injEq] at h
      obtain ⟨hb, hsp⟩ := h
      subst hb; subst hsp
      exact ⟨rfl, rfl, _, rfl⟩
  | memBufferWrite size =>
    simp only [execAppend, urCommandBufferAppendMemBufferWriteExp] at h
    split at h
    · exact absurd h (by simp)
    · simp only [cuGraphAddMemcpyNode, CmdBuffer.addSyncPoint,
        Except.ok.injEq, Prod.mk.injEq] at h
      obtain ⟨hb, hsp⟩ := h
      subst hb; subst hsp
      exact ⟨rfl, rfl, _, rfl⟩
  | memBufferRead size =>
    simp only [execAppend, urCommandBufferAppendMemBufferReadExp] at h
    split at h
    · exact absurd h (by simp)
    · simp only [cuGraphAddMemcpyNode, CmdBuffer.addSyncPoint,
        Except.ok.injEq, Prod.mk.injEq] at h
      obtain ⟨hb, hsp⟩ := h
      subst hb; subst hsp
      exact ⟨rfl, rfl, _, rfl⟩
  | memBufferWriteRect regionWidth =>
    simp only [execAppend, urCommandBufferAppendMemBufferWriteRectExp] at h
    split at h
    · exact absurd h (by simp)
    · simp only [cuGraphAddMemcpyNode, CmdBuffer.addSyncPoint,
        Except.ok.injEq, Prod.mk.injEq] at h
      obtain ⟨hb, hsp⟩ := h
      subst hb; subst hsp
      exact ⟨rfl, rfl, _, rfl⟩
  | memBufferReadRect regionWidth =>
    simp only [execAppend, urCommandBufferAppendMemBufferReadRectExp] at h
    split at h
    · exact absurd h (by simp)
    · simp only [cuGraphAddMemcpyNode, CmdBuffer.addSyncPoint,
        Except.ok.injEq, Prod.mk.injEq] at h
      obtain ⟨hb, hsp⟩ := h
      subst hb; subst hsp
      exact ⟨rfl, rfl, _, rfl⟩
  | usmPrefetch =>
    simp only [execAppend, urCommandBufferAppendUSMPrefetchExp] at h
    split at h
    · exact absurd h (by simp)
    · simp only [cuGraphAddEmptyNode, CmdBuffer.addSyncPoint,
        Except.ok.injEq, Prod.mk.injEq] at h
      obtain ⟨hb, hsp⟩ := h
      subst hb; subst hsp
      exact ⟨rfl, rfl, _, rfl⟩
  | usmAdvise =>
    simp only [execAppend, urCommandBufferAppendUSMAdviseExp] at h
    split at h
    · exact absurd h (by simp)
    · simp only [cuGraphAddEmptyNode, CmdBuffer.addSyncPoint,
        Except.ok.injEq, Prod.mk.injEq] at h
      obtain ⟨hb, hsp⟩ := h
      subst hb; subst hsp
      exact ⟨rfl, rfl, _, rfl⟩
  | memBufferFill mem pattern patternSize offset size =>
    simp only [execAppend, urCommandBufferAppendMemBufferFillExp] at h
    split at h
    · exact absurd h (by simp)
    · exact enqueueCommandBufferFillHelper_ok_spec _ _ _ _ _ _ _ _ h
  | usmFill ptr pattern patternSize size =>
    simp only [execAppend, urCommandBufferAppendUSMFillExp] at h
    split at h
    · exact absurd h (by simp)
    · exact enqueueCommandBufferFillHelper_ok_spec _ _ _ _ _ _ _ _ h

theorem findPairKey_isSome :
    ∀ (l : List (Nat × Nat)) (k : Nat), k ∈ l.map Prod.fst →
      (l.find? (fun p => p.1 == k)).isSome = true := by
  intro l
  induction l with
  | nil => intro k h; simp at h
  | cons p rest ih =>
    intro k h
    simp only [List.map_cons, List.mem_cons] at h
    by_cases hk : p.1 == k
    · simp [List.find?, hk]
    · rcases h with h | h
      · exact absurd (by simp [h]) hk
      · simpa [List.find?, hk] using ih k h

theorem runAppends_spec :
    ∀ (ops : List (AppendOp × List SyncPoint)) (b b' : CmdBuffer)
      (sps : List SyncPoint),
      runAppends b ops = some (b', sps) →
      sps = List.range' b.nextSyncPoint ops.length ∧
      b'.nextSyncPoint = b.nextSyncPoint + ops.length ∧
      ∃ l, b'.syncPoints = b.syncPoints ++ l ∧
        l.map Prod.fst = List.range' b.nextSyncPoint ops.length := by
  intro ops
  induction ops with
  | nil =>
    intro b b' sps h
    simp only [runAppends, Option.some.injEq, Prod.mk.injEq] at h
    obtain ⟨hb, hs⟩ := h
    subst hb; subst hs
    simp [List.range']
  | cons p rest ih =>
    intro b b' sps h
    obtain ⟨op, wl⟩ := p
    simp only [runAppends] at h
    split at h
    next b1 sp heq =>
      split at h
      next b2 sps2 heq2 =>
        simp only [Option.some.injEq, Prod.mk.injEq] at h
        obtain ⟨hb, hs⟩ := h
        subst hb; subst hs
        obtain ⟨hsp, hnext, node, hsync⟩ :=
          execAppend_ok_spec b op wl b1 sp heq
        obtain ⟨ih1, ih2, l, ih3, ih4⟩ := ih b1 b2 sps2 heq2
        subst hsp
        refine ⟨?_, ?_, ?_⟩
        · simp [List.range', ih1, hnext]
        · simp only [List.length_cons]; omega
        · refine ⟨(b.nextSyncPoint, node) :: l, ?_, ?_⟩
          · simp [ih3, hsync]
          · simp [List.range', ih4, hnext]
      next heq2 => exact absurd h (by simp)
    next e heq => exact absurd h (by simp)

/-- C1: for every fresh command buffer and every sequence of successful
Append* operations on it, the returned sync points are exactly
`0, 1, ..., n-1` in order (unique, strictly increasing, starting at 0),
the buffer's next-sync-point counter equals the number of successful
appends (exactly one new sync point per append), and every returned sync
point is afterwards resolvable in the buffer's sync-point registry. -/
theorem syncPoints_unique_increasing_resolvable (ctx dev : Nat) (u : Bool)
    (ops : List (AppendOp × List SyncPoint)) (b' : CmdBuffer)
    (sps : List SyncPoint)
    (h : runAppends (urCommandBufferCreateExp ctx dev u) ops
        = some (b', sps)) :
    sps = List.range ops.length ∧
    b'.nextSyncPoint = ops.length ∧
    ∀ sp ∈ sps, (b'.findSyncPoint sp).isSome = true := by
  obtain ⟨h1, h2, l, h3, h4⟩ :=
    runAppends_spec ops (urCommandBufferCreateExp ctx dev u) b' sps h
  simp only [urCommandBufferCreateExp] at h1 h2 h3 h4
  refine ⟨by rw [h1, List.range_eq_range'], by simpa using h2, ?_⟩
  intro sp hsp
  have hmem : sp ∈ l.map Prod.fst := by
    rw [h4]
    rw [h1] at hsp
    exact hsp
  have : sp ∈ b'.syncPoints.map Prod.fst := by
    rw [h3]; simpa using hmem
  simpa [CmdBuffer.findSyncPoint] using findPairKey_isSome b'.syncPoints sp this

theorem syncPoints_unique_increasing_resolvable_witness :
    runAppends (urCommandBufferCreateExp 0 0 false)
        [(AppendOp.usmPrefetch, []), (AppendOp.usmAdvise, [0])]
      = some ({ context := 0, device := 0, isUpdatable := false,
                cudaGraph := [⟨.emptyNode, []⟩, ⟨.emptyNode, [0]⟩],
                cudaGraphExec := false, refCountInternal := 1,
                refCountExternal := 1, nextSyncPoint := 2,
                syncPoints := [(0, 0), (1, 1)], commandHandles := [],
                alive := true }, [0, 1]) ∧
    [0, 1] = List.range 2 ∧
    (2 : Nat) = 2 ∧
    (({ context := 0, device := 0, isUpdatable := false,
        cudaGraph := [⟨.emptyNode, []⟩, ⟨.emptyNode, [0]⟩],
        cudaGraphExec := false, refCountInternal := 1,
        refCountExternal := 1, nextSyncPoint := 2,
        syncPoints := [(0, 0), (1, 1)], commandHandles := [],
        alive := true } : CmdBuffer).findSyncPoint 0).isSome = true := by
  have h := syncPoints_unique_increasing_resolvable 0 0 false
    [(AppendOp.usmPrefetch, []), (AppendOp.usmAdvise, [0])]
    { context := 0, device := 0, isUpdatable := false,
      cudaGraph := [⟨.emptyNode, []⟩, ⟨.emptyNode, [0]⟩],
      cudaGraphExec := false, refCountInternal := 1,
      refCountExternal := 1, nextSyncPoint := 2,
      syncPoints := [(0, 0), (1, 1)], commandHandles := [],
      alive := true } [0, 1] (by decide)
  exact ⟨by decide, h.1, rfl, h.2.2 0 (by decide)⟩

theorem getNodesFromSyncPoints_error (b : CmdBuffer) :
    ∀ (wl : List SyncPoint), (∃ sp ∈ wl, b.findSyncPoint sp = none) →
      getNodesFromSyncPoints b wl = .error .InvalidValue := by
  intro wl
  induction wl with
  | nil => intro h; simp at h
  | cons sp rest ih =>
    intro h
    rcases h with ⟨q, hq, hnone⟩
    rcases List.mem_cons.mp hq with rfl | hmem
    · simp [getNodesFromSyncPoints, hnone]
    · cases hfind : b.findSyncPoint sp with
      | none => simp [getNodesFromSyncPoints, hfind]
      | some node =>
        simp [getNodesFromSyncPoints, hfind, ih ⟨q, hmem, hnone⟩]

/-- C2 (counterexample): a USM-fill append whose wait list holds an
unknown sync point but whose pattern is null fails with `InvalidSize`,
not `InvalidValue`: the pattern validation runs before the wait list is
resolved, so the claim as stated (any unknown sync point in the wait list
yields `InvalidValue`) is false. -/
theorem appendUnknownSyncPointNotAlwaysInvalidValue :
    (urCommandBufferCreateExp 0 0 false).findSyncPoint 0 = none ∧
    execAppend (urCommandBufferCreateExp 0 0 false)
        (.usmFill 0 none 2 4) [0] = .error .InvalidSize ∧
    UrResult.InvalidSize ≠ UrResult.InvalidValue := by
  refine ⟨rfl, rfl, by decide⟩

/-- C2 (amended): provided the operation's own parameter validation that
runs before wait-list resolution passes (kernel-context/work-dimension/
alternative checks for kernel launch, bounds checks for buffer copy,
pattern checks for the two fills; vacuous for the other operations),
every Append* with a wait list containing a sync point unknown to the
buffer fails with `InvalidValue` and produces no new buffer state: no
graph node is added and no sync point is registered. -/
theorem appendUnknownSyncPointInvalidValue (b : CmdBuffer) (op : AppendOp)
    (wl : List SyncPoint) (hpre : preValidation b op = true)
    (hbad : ∃ sp ∈ wl, b.findSyncPoint sp = none) :
    execAppend b op wl = .error .InvalidValue := by
  have herr := getNodesFromSyncPoints_error b wl hbad
  cases op with
  | kernelLaunch k workDim gwOffset gws lws alternatives =>
    simp only [preValidation, Bool.and_eq_true] at hpre
    obtain ⟨⟨⟨hctx, hdim1⟩, hdim2⟩, halts⟩ := hpre
    simp [execAppend, urCommandBufferAppendKernelLaunchExp, hctx, hdim1,
      hdim2, halts, herr]
  | usmMemcpy size =>
    simp [execAppend, urCommandBufferAppendUSMMemcpyExp, herr]
  | memBufferCopy srcMem dstMem srcOffset dstOffset size =>
    simp only [preValidation, Bool.and_eq_true, decide_eq_true_eq] at hpre
    simp [execAppend, urCommandBufferAppendMemBufferCopyExp, hpre.1,
      hpre.2, herr]
  | memBufferCopyRect regionWidth =>
    simp [execAppend, urCommandBufferAppendMemBufferCopyRectExp, herr]
  | memBufferWrite size =>
    simp [execAppend, urCommandBufferAppendMemBufferWriteExp, herr]
  | memBufferRead size =>
    simp [execAppend, urCommandBufferAppendMemBufferReadExp, herr]
  | memBufferWriteRect regionWidth =>
    simp [execAppend, urCommandBufferAppendMemBufferWriteRectExp, herr]
  | memBufferReadRect regionWidth =>
    simp [execAppend, urCommandBufferAppendMemBufferReadRectExp, herr]
  | usmPrefetch =>
    simp [execAppend, urCommandBufferAppendUSMPrefetchExp, herr]
  | usmAdvise =>
    simp [execAppend, urCommandBufferAppendUSMAdviseExp, herr]
  | memBufferFill mem pattern patternSize offset size =>
    simp only [preValidation, Bool.and_eq_true] at hpre
    obtain ⟨⟨hmult, hpat⟩, hps⟩ := hpre
    simp [execAppend, urCommandBufferAppendMemBufferFillExp,
      enqueueCommandBufferFillHelper, hmult, hpat, hps, herr]
  | usmFill ptr pattern patternSize size =>
    simp only [preValidation, Bool.and_eq_true] at hpre
    obtain ⟨hpat, hps⟩ := hpre
    simp [execAppend, urCommandBufferAppendUSMFillExp,
      enqueueCommandBufferFillHelper, hpat, hps, herr]

theorem appendUnknownSyncPointInvalidValue_witness :
    preValidation (urCommandBufferCreateExp 0 0 false) .usmPrefetch = true ∧
    (urCommandBufferCreateExp 0 0 false).findSyncPoint 3 = none ∧
    execAppend (urCommandBufferCreateExp 0 0 false) .usmPrefetch [3]
      = .error .InvalidValue :=
  ⟨rfl, rfl,
    appendUnknownSyncPointInvalidValue (urCommandBufferCreateExp 0 0 false)
      .usmPrefetch [3] rfl ⟨3, by decide, rfl⟩⟩

/-- C4 (counterexample): a kernel-launch append whose global work size is
`[4, 0]` over 2 work dimensions has total work `4 * 0 = 0`, yet the code
only tests the FIRST element of the global work size (which is 4), so it
records a kernel node, not an empty barrier node: the claim quantified
over "product 0" is false. -/
theorem zeroProductGWSNotBarrier :
    (([4, 0] : List Nat).take 2).prod = 0 ∧
    ((execAppend (urCommandBufferCreateExp 0 0 false)
        (.kernelLaunch ⟨1, 0, 0⟩ 2 [0, 0] [4, 0] none []) []).toOption.map
      (fun r => r.1.cudaGraph.map GraphNode.kind))
      = some [NodeKind.kernelNode
                (kernelNodeParamsOf ⟨1, 0, 0⟩ 2 [4, 0] none)] ∧
    NodeKind.kernelNode (kernelNodeParamsOf ⟨1, 0, 0⟩ 2 [4, 0] none)
      ≠ NodeKind.emptyNode := by
  refine ⟨rfl, rfl, by decide⟩

/-- C4 (amended): for every kernel-launch append whose FIRST global work
size element is 0 (the degeneracy test the code actually performs), and
whose earlier validation passes with a resolvable wait list, an empty
barrier node is recorded instead of a kernel node, and a fresh sync point
is registered and afterwards resolvable (usable as a dependency). -/
theorem zeroFirstGWSRecordsEmptyNode (b : CmdBuffer) (k : Kernel)
    (workDim : Nat) (gwOffset gws : List Nat) (lws : Option (List Nat))
    (alternatives : List Nat) (wl : List SyncPoint) (deps : List NodeId)
    (hctx : b.context = k.context) (hd1 : 0 < workDim) (hd2 : workDim < 4)
    (halts : ∀ a ∈ alternatives, a ≠ k.id)
    (hres : getNodesFromSyncPoints b wl = .ok deps)
    (hzero : gws.getD 0 0 = 0) :
    execAppend b (.kernelLaunch k workDim gwOffset gws lws alternatives) wl
      = .ok ({ b with
          cudaGraph := b.cudaGraph ++ [⟨.emptyNode, deps⟩],
          syncPoints := b.syncPoints ++
            [(b.nextSyncPoint, b.cudaGraph.length)],
          nextSyncPoint := b.nextSyncPoint + 1 }, b.nextSyncPoint) ∧
    (CmdBuffer.findSyncPoint { b with
        cudaGraph := b.cudaGraph ++ [⟨.emptyNode, deps⟩],
        syncPoints := b.syncPoints ++
          [(b.nextSyncPoint, b.cudaGraph.length)],
        nextSyncPoint := b.nextSyncPoint + 1 } b.nextSyncPoint).isSome
      = true := by
  have hany : (alternatives.any (fun a => a == k.id)) = false := by
    rw [List.any_eq_false]
    intro a ha
    simp [halts a ha]
  have hz : gws[0]?.getD 0 = 0 := by simpa using hzero
  constructor
  · simp [execAppend, urCommandBufferAppendKernelLaunchExp, hctx, hd1, hd2,
      hany, hres, hz, cuGraphAddEmptyNode, CmdBuffer.addSyncPoint]
  · simp only [CmdBuffer.findSyncPoint]
    have hs := findPairKey_isSome
      (b.syncPoints ++ [(b.nextSyncPoint, b.cudaGraph.length)])
      b.nextSyncPoint (by simp)
    cases hq : List.find? (fun p => p.1 == b.nextSyncPoint)
        (b.syncPoints ++ [(b.nextSyncPoint, b.cudaGraph.length)]) with
    | none => rw [hq] at hs; simp at hs
    | some v => simp [hq]

theorem zeroFirstGWSRecordsEmptyNode_witness :
    execAppend (urCommandBufferCreateExp 0 0 false)
        (.kernelLaunch ⟨1, 0, 0⟩ 1 [0] [0] none []) []
      = .ok ({ urCommandBufferCreateExp 0 0 false with
          cudaGraph := [] ++ [⟨.emptyNode, []⟩],
          syncPoints := [] ++ [(0, 0)], nextSyncPoint := 0 + 1 }, 0) ∧
    (CmdBuffer.findSyncPoint { urCommandBufferCreateExp 0 0 false with
        cudaGraph := [] ++ [⟨.emptyNode, []⟩],
        syncPoints := [] ++ [(0, 0)], nextSyncPoint := 0 + 1 } 0).isSome
      = true := by
  have h := zeroFirstGWSRecordsEmptyNode (urCommandBufferCreateExp 0 0 false)
    ⟨1, 0, 0⟩ 1 [0] [0] none [] [] [] rfl (by decide) (by decide)
    (by intro a ha; simp at ha) rfl rfl
  simpa using h

/-- C5 (counterexample): the buffer was created with the updatable flag
false, yet a successful kernel-launch append stores a CommandHandle in the
buffer's handle collection: allocation is unconditional in the code, so
"only if the buffer was created with the updatable flag set" is false. -/
theorem commandHandleAllocatedForNonUpdatableBuffer :
    (urCommandBufferCreateExp 0 0 false).isUpdatable = false ∧
    ((execAppend (urCommandBufferCreateExp 0 0 false)
        (.kernelLaunch ⟨1, 0, 0⟩ 1 [0] [1] none []) []).toOption.map
      (fun r => r.1.commandHandles.length)) = some 1 :=
  ⟨rfl, rfl⟩

/-- C5 (amended): on every successful kernel-launch append whose first
global-work-size element is nonzero, a CommandHandle is allocated and
stored in the buffer's handle collection REGARDLESS of the updatable
flag; it captures the kernel, the node reference, the node parameters,
the work dimension and the zero-padded geometry arrays, its internal ref
count is 2 after the append's explicit increment, and the owning buffer's
internal reference count is incremented by exactly 1. -/
theorem kernelLaunchAllocatesHandle (b : CmdBuffer) (k : Kernel)
    (workDim : Nat) (gwOffset gws : List Nat) (lws : Option (List Nat))
    (alternatives : List Nat) (wl : List SyncPoint) (deps : List NodeId)
    (hctx : b.context = k.context) (hd1 : 0 < workDim) (hd2 : workDim < 4)
    (halts : ∀ a ∈ alternatives, a ≠ k.id)
    (hres : getNodesFromSyncPoints b wl = .ok deps)
    (hnz : gws.getD 0 0 ≠ 0) :
    execAppend b (.kernelLaunch k workDim gwOffset gws lws alternatives) wl
      = .ok ({ b with
          cudaGraph := b.cudaGraph ++
            [⟨.kernelNode (kernelNodeParamsOf k workDim gws lws), deps⟩],
          syncPoints := b.syncPoints ++
            [(b.nextSyncPoint, b.cudaGraph.length)],
          nextSyncPoint := b.nextSyncPoint + 1,
          refCountInternal := b.refCountInternal + 1,
          commandHandles := b.commandHandles ++
            [{ mkCommandHandle k b.cudaGraph.length
                  (kernelNodeParamsOf k workDim gws lws) workDim gwOffset
                  gws lws alternatives with refCountInternal := 2 }] },
        b.nextSyncPoint) := by
  have hany : (alternatives.any (fun a => a == k.id)) = false := by
    rw [List.any_eq_false]
    intro a ha
    simp [halts a ha]
  have hn : ¬(gws[0]?.getD 0 = 0) := by simpa using hnz
  simp [execAppend, urCommandBufferAppendKernelLaunchExp, hctx, hd1, hd2,
    hany, hres, hn, cuGraphAddKernelNode, CmdBuffer.addSyncPoint,
    mkCommandHandle]

theorem kernelLaunchAllocatesHandle_witness :
    execAppend (urCommandBufferCreateExp 0 0 true)
        (.kernelLaunch ⟨1, 0, 0⟩ 1 [0] [8] none [2]) []
      = .ok ({ urCommandBufferCreateExp 0 0 true with
          cudaGraph :=
            [] ++ [⟨.kernelNode (kernelNodeParamsOf ⟨1, 0, 0⟩ 1 [8] none),
                    []⟩],
          syncPoints := [] ++ [(0, 0)], nextSyncPoint := 0 + 1,
          refCountInternal := 1 + 1,
          commandHandles :=
            [] ++ [{ mkCommandHandle ⟨1, 0, 0⟩ 0
                      (kernelNodeParamsOf ⟨1, 0, 0⟩ 1 [8] none) 1 [0] [8]
                      none [2] with refCountInternal := 2 }] }, 0) := by
  have h := kernelLaunchAllocatesHandle (urCommandBufferCreateExp 0 0 true)
    ⟨1, 0, 0⟩ 1 [0] [8] none [2] [] [] rfl (by decide) (by decide)
    (by intro a ha; simp at ha; subst ha; decide) rfl (by decide)
  simpa using h

theorem getNodesFromSyncPoints_error_eq (b : CmdBuffer) :
    ∀ (wl : List SyncPoint) (e : UrResult),
      getNodesFromSyncPoints b wl = .error e → e = .InvalidValue := by
  intro wl
  induction wl with
  | nil => intro e h; simp [getNodesFromSyncPoints] at h
  | cons sp rest ih =>
    intro e h
    simp only [getNodesFromSyncPoints] at h
    cases hfind : b.findSyncPoint sp with
    | none =>
      rw [hfind] at h
      simp only [Except.error.injEq] at h
      exact h.symm
    | some node =>
      rw [hfind] at h
      cases hrest : getNodesFromSyncPoints b rest with
      | ok l => rw [hrest] at h; simp at h
      | error e2 => rw [hrest] at h; simp at h; subst h; exact ih e2 hrest

theorem enqueueCommandBufferFillHelper_error_eq (b : CmdBuffer)
    (dstPtr : Nat) (pattern : List Nat) (patternSize size : Nat)
    (wl : List SyncPoint) (e : UrResult)
    (h : enqueueCommandBufferFillHelper b dstPtr pattern patternSize size wl
        = .error e) : e = .InvalidValue := by
  simp only [enqueueCommandBufferFillHelper] at h
  split at h
  next e2 heq =>
    simp only [Except.error.injEq] at h
    subst h
    exact getNodesFromSyncPoints_error_eq b wl e2 heq
  next deps heq =>
    split at h <;> exact absurd h (by simp)

/-- C7 (counterexample): a USM fill of 3 bytes with a 2-byte pattern
(size not a multiple of the pattern size) succeeds, and a buffer fill
with offset 0 and size 3 for a 2-byte pattern also succeeds (the code
ORs the offset and size multiple checks, and USM fill has no multiple
check at all), refuting "fails with InvalidSize whenever the fill
offset/size is not a multiple of the pattern size". -/
theorem fillMisalignedSizeNotRejected :
    (3 % 2 = 1) ∧
    ((execAppend (urCommandBufferCreateExp 0 0 false)
        (.usmFill 0 (some [5, 6]) 2 3) []).toOption).isSome = true ∧
    ((execAppend (urCommandBufferCreateExp 0 0 false)
        (.memBufferFill ⟨16⟩ (some [5, 6]) 2 0 3) []).toOption).isSome
      = true := by
  refine ⟨rfl, rfl, rfl⟩

/-- C7 (amended): a buffer-fill append fails with `InvalidSize` (and does
nothing else) exactly when its validation fails, where the validation
requires a non-null pattern, a positive power-of-two pattern size, and
that the offset OR the size be a multiple of the pattern size (the code
uses a disjunction, not a conjunction); a USM-fill append validates only
the non-null pattern and the power-of-two pattern size (no multiple
check).  When validation passes the operation never reports
`InvalidSize`. -/
theorem fillValidationInvalidSize (b : CmdBuffer) (mem : BufferMem)
    (ptr : Nat) (pattern : Option (List Nat))
    (patternSize offset size : Nat) (wl : List SyncPoint) :
    ((((offset % patternSize == 0) || (size % patternSize == 0)) &&
        pattern.isSome && patternSizeIsValid patternSize) = false →
      execAppend b (.memBufferFill mem pattern patternSize offset size) wl
        = .error .InvalidSize) ∧
    ((pattern.isSome && patternSizeIsValid patternSize) = false →
      execAppend b (.usmFill ptr pattern patternSize size) wl
        = .error .InvalidSize) ∧
    ((((offset % patternSize == 0) || (size % patternSize == 0)) &&
        pattern.isSome && patternSizeIsValid patternSize) = true →
      execAppend b (.memBufferFill mem pattern patternSize offset size) wl
        ≠ .error .InvalidSize) ∧
    ((pattern.isSome && patternSizeIsValid patternSize) = true →
      execAppend b (.usmFill ptr pattern patternSize size) wl
        ≠ .error .InvalidSize) := by
  refine ⟨?_, ?_, ?_, ?_⟩
  · intro hv
    simp [execAppend, urCommandBufferAppendMemBufferFillExp, hv]
  · intro hv
    simp [execAppend, urCommandBufferAppendUSMFillExp, hv]
  · intro hv
    simp only [execAppend, urCommandBufferAppendMemBufferFillExp, hv,
      Bool.not_true, Bool.false_eq_true, if_false]
    intro hcontra
    have := enqueueCommandBufferFillHelper_error_eq b offset
      (pattern.getD []) patternSize size wl .InvalidSize hcontra
    simp at this
  · intro hv
    simp only [execAppend, urCommandBufferAppendUSMFillExp, hv,
      Bool.not_true, Bool.false_eq_true, if_false]
    intro hcontra
    have := enqueueCommandBufferFillHelper_error_eq b ptr
      (pattern.getD []) patternSize size wl .InvalidSize hcontra
    simp at this

theorem fillValidationInvalidSize_witness :
    execAppend (urCommandBufferCreateExp 0 0 false)
        (.memBufferFill ⟨16⟩ none 3 1 5) [] = .error .InvalidSize ∧
    execAppend (urCommandBufferCreateExp 0 0 false)
        (.usmFill 0 none 3 5) [] = .error .InvalidSize :=
  ⟨(fillValidationInvalidSize (urCommandBufferCreateExp 0 0 false) ⟨16⟩ 0
      none 3 1 5 []).1 (by decide),
   (fillValidationInvalidSize (urCommandBufferCreateExp 0 0 false) ⟨16⟩ 0
      none 3 1 5 []).2.1 (by decide)⟩

/-- Specification of the node sequence appended by the per-byte fill
loop: starting at pattern byte `step`, with `remaining` nodes left,
`prev` the node the first chain element depends on, and `idx` the graph
index the next node will receive. -/
def chainByteParams (dstPtr : Nat) (pattern : List Nat)
    (size ns step : Nat) : MemsetParams :=
  { dst := dstPtr + step, elementSize := 1, height := size / ns,
    pitch := ns, value := pattern.getD step 0, width := 1 }

def chainNodes (dstPtr : Nat) (pattern : List Nat) (size ns : Nat) :
    Nat → Nat → NodeId → NodeId → List GraphNode
  | _, 0, _, _ => []
  | step, remaining + 1, prev, idx =>
    ⟨.memsetNode (chainByteParams dstPtr pattern size ns step), [prev]⟩ ::
      chainNodes dstPtr pattern size ns (step + 1) remaining idx (idx + 1)

theorem fillChainSteps_eq (dstPtr : Nat) (pattern : List Nat)
    (size ns : Nat) :
    ∀ (remaining step : Nat) (b : CmdBuffer) (prev : NodeId),
      fillChainSteps dstPtr pattern size ns step remaining b prev
        = ({ b with
              cudaGraph := b.cudaGraph ++
                chainNodes dstPtr pattern size ns step remaining prev
                  b.cudaGraph.length },
           if remaining = 0 then prev
           else b.cudaGraph.length + remaining - 1) := by
  intro remaining
  induction remaining with
  | zero => intro step b prev; simp [fillChainSteps, chainNodes]
  | succ r ih =>
    intro step b prev
    have hrec := ih (step + 1)
      { b with cudaGraph := b.cudaGraph ++
          [⟨.memsetNode (chainByteParams dstPtr pattern size ns step),
            [prev]⟩] }
      b.cudaGraph.length
    simp only [chainByteParams] at hrec
    simp only [fillChainSteps, cuGraphAddMemsetNode]
    rw [hrec]
    simp only [chainNodes, chainByteParams, List.length_append,
      List.length_cons, List.length_nil, List.append_assoc,
      List.singleton_append, Prod.mk.injEq]
    constructor
    · trivial
    · by_cases hr : r = 0 <;> simp [hr] <;> omega

theorem chainNodes_length (dstPtr : Nat) (pattern : List Nat)
    (size ns : Nat) :
    ∀ (remaining step : Nat) (prev idx : NodeId),
      (chainNodes dstPtr pattern size ns step remaining prev idx).length
        = remaining := by
  intro remaining
  induction remaining with
  | zero => intro step prev idx; simp [chainNodes]
  | succ r ih =>
    intro step prev idx
    simp [chainNodes, ih (step + 1) idx (idx + 1)]

theorem chainNodes_get (dstPtr : Nat) (pattern : List Nat)
    (size ns : Nat) :
    ∀ (remaining step : Nat) (prev idx : NodeId) (j : Nat), j < remaining →
      (chainNodes dstPtr pattern size ns step remaining prev idx).get? j
        = some ⟨.memsetNode
              (chainByteParams dstPtr pattern size ns (step + j)),
            [if j = 0 then prev else idx + j - 1]⟩ := by
  intro remaining
  induction remaining with
  | zero => intro step prev idx j hj; omega
  | succ r ih =>
    intro step prev idx j hj
    cases j with
    | zero => simp [chainNodes]
    | succ j2 =>
      have := ih (step + 1) idx (idx + 1) j2 (by omega)
      simp only [chainNodes, List.get?_cons_succ]
      rw [this]
      have h1 : step + 1 + j2 = step + (j2 + 1) := by omega
      have h2 : (if j2 = 0 then idx else idx + 1 + j2 - 1)
          = idx + (j2 + 1) - 1 := by
        by_cases hz : j2 = 0 <;> simp [hz] <;> omega
      rw [h1, h2]
      simp

/-- The parameters of the leading width-4 memset node of a large-pattern
fill (`NodeParamsStepFirst` in the source). -/
def fillFirstParams (dstPtr : Nat) (pattern : List Nat) (size : Nat) :
    MemsetParams :=
  { dst := dstPtr, elementSize := 4, height := size / 4, pitch := 4,
    value := readBytes pattern 0 4, width := 1 }

/-- C8: for every fill whose pattern size is strictly greater than 4, the
helper adds exactly one 4-byte-element strided set node covering the
region in 4-byte units (depending on the resolved wait list) followed by
one 1-byte set node per remaining byte offset of the pattern period
(pattern size minus 4 of them), each depending only on the previous node
of the chain, and the final 1-byte node is the one registered under the
returned sync point. -/
theorem largePatternFillChain (b : CmdBuffer) (dstPtr : Nat)
    (pattern : List Nat) (patternSize size : Nat) (wl : List SyncPoint)
    (deps : List NodeId) (hres : getNodesFromSyncPoints b wl = .ok deps)
    (hgt : 4 < patternSize) :
    ∃ b', enqueueCommandBufferFillHelper b dstPtr pattern patternSize size
        wl = .ok (b', b.nextSyncPoint) ∧
      b'.cudaGraph.length = b.cudaGraph.length + 1 + (patternSize - 4) ∧
      b'.cudaGraph.get? b.cudaGraph.length
        = some ⟨.memsetNode (fillFirstParams dstPtr pattern size), deps⟩ ∧
      (∀ j, j < patternSize - 4 →
        b'.cudaGraph.get? (b.cudaGraph.length + 1 + j)
          = some ⟨.memsetNode
                (chainByteParams dstPtr pattern size patternSize (4 + j)),
              [b.cudaGraph.length + j]⟩) ∧
      b'.syncPoints = b.syncPoints ++
        [(b.nextSyncPoint,
          b.cudaGraph.length + (patternSize - 4))] := by
  have hne : (patternSize == 1 || patternSize == 2 || patternSize == 4)
      = false := by
    simp only [Bool.or_eq_false_iff, beq_eq_false_iff_ne]
    omega
  have hrem : patternSize - 4 ≠ 0 := by omega
  have harith : b.cudaGraph.length + 1 + (patternSize - 4) - 1
      = b.cudaGraph.length + (patternSize - 4) := by omega
  refine ⟨{ b with
      cudaGraph :=
        (b.cudaGraph ++
          [⟨.memsetNode (fillFirstParams dstPtr pattern size), deps⟩]) ++
          chainNodes dstPtr pattern size patternSize 4 (patternSize - 4)
            b.cudaGraph.length (b.cudaGraph.length + 1),
      syncPoints := b.syncPoints ++
        [(b.nextSyncPoint,
          b.cudaGraph.length + (patternSize - 4))],
      nextSyncPoint := b.nextSyncPoint + 1 }, ?_, ?_, ?_, ?_, ?_⟩
  · simp only [enqueueCommandBufferFillHelper, hres, hne,
      Bool.false_eq_true, if_false, cuGraphAddMemsetNode,
      fillChainSteps_eq, fillFirstParams, CmdBuffer.addSyncPoint]
    simp [hrem, harith]
  · simp only [List.length_append, List.length_cons, List.length_nil,
      chainNodes_length]
  · rw [List.get?_append (by simp)]
    exact List.get?_concat_length _ _
  · intro j hj
    rw [List.get?_append_right (by simp)]
    have hidx : b.cudaGraph.length + 1 + j
        - (b.cudaGraph ++
            [(⟨.memsetNode (fillFirstParams dstPtr pattern size),
              deps⟩ : GraphNode)]).length = j := by
      simp
    rw [hidx, chainNodes_get dstPtr pattern size patternSize
      (patternSize - 4) 4 b.cudaGraph.length (b.cudaGraph.length + 1) j hj]
    by_cases hz : j = 0
    · simp [hz]
    · have : b.cudaGraph.length + 1 + j - 1 = b.cudaGraph.length + j := by
        omega
      simp [hz, this]
  · rfl

theorem largePatternFillChain_witness :
    ((enqueueCommandBufferFillHelper (urCommandBufferCreateExp 0 0 false) 0
        [1, 2, 3, 4, 5, 6, 7, 8] 8 16 []).toOption.map
      (fun r => (r.1.cudaGraph.length, r.2))) = some (5, 0) := by
  obtain ⟨b', hok, hlen, hfirst, hchain, hsync⟩ :=
    largePatternFillChain (urCommandBufferCreateExp 0 0 false) 0
      [1, 2, 3, 4, 5, 6, 7, 8] 8 16 [] [] rfl (by decide)
  rw [hok]
  simp [Except.toOption, hlen, urCommandBufferCreateExp]

/-- C3: (a) if the owning buffer has no compiled executable graph or was
not created updatable, validation fails with `InvalidOperation`; (b) when
every earlier check of the sequential validator passes and the requested
new kernel is not in the handle's fixed valid-kernel set, validation
fails with `InvalidValue`; (c) whenever validation fails with any error,
`UpdateKernelLaunch` returns exactly that error and produces no new
state: the command handle's stored kernel, work dimension, geometry and
node parameters and the compiled graph are all untouched (mutation
happens only on the success path of the model, matching the source where
every mutation follows the `validateCommandDesc` call). -/
theorem updateValidationFailureBehavior (b : CmdBuffer)
    (c : CommandHandle) (d : UpdateDesc) (ls : Nat) :
    ((b.cudaGraphExec = false ∨ b.isUpdatable = false) →
      validateCommandDesc b c d = .InvalidOperation) ∧
    (b.cudaGraphExec = true → b.isUpdatable = true →
      (d.newWorkDim == 0 && !(c.kernel == d.hNewKernel)) = false →
      (d.newWorkDim != 0 && !(d.newWorkDim > 0)) = false →
      (d.newWorkDim != 0 && !(d.newWorkDim < 4)) = false →
      (d.newWorkDim != 0 &&
        (d.newWorkDim != c.workDim && c.kernel == d.hNewKernel)) = false →
      (d.newWorkDim != 0 &&
        (d.pNewLocalWorkSize.isSome && d.pNewGlobalWorkSize.isNone))
        = false →
      (d.newWorkDim != 0 &&
        (d.pNewLocalWorkSize.isNone != c.isNullLocalSize)) = false →
      c.validKernelHandles.contains d.hNewKernel = false →
      validateCommandDesc b c d = .InvalidValue) ∧
    (∀ r, validateCommandDesc b c d = r → r ≠ .Success →
      urCommandBufferUpdateKernelLaunchExp b c d ls = .error r) := by
  refine ⟨?_, ?_, ?_⟩
  · rintro (hexec | hupd)
    · simp [validateCommandDesc, hexec]
    · cases hexec : b.cudaGraphExec with
      | false => simp [validateCommandDesc, hexec]
      | true => simp [validateCommandDesc, hexec, hupd]
  · intro hexec hupd h3 h4 h5 h6 h7 h8 hk
    simp only [validateCommandDesc, hexec, hupd, h3, h4, h5, h6, h7, h8,
      hk, Bool.not_true, Bool.false_eq_true, if_false, Bool.not_false,
      if_true]
  · intro r hr hne
    cases r with
    | Success => exact absurd hr (by simpa using hne)
    | InvalidValue =>
      simp only [urCommandBufferUpdateKernelLaunchExp, hr]
    | InvalidSize =>
      simp only [urCommandBufferUpdateKernelLaunchExp, hr]
    | InvalidOperation =>
      simp only [urCommandBufferUpdateKernelLaunchExp, hr]
    | InvalidWorkDimension =>
      simp only [urCommandBufferUpdateKernelLaunchExp, hr]
    | InvalidKernel =>
      simp only [urCommandBufferUpdateKernelLaunchExp, hr]

theorem updateValidationFailureBehavior_witness :
    validateCommandDesc (urCommandBufferCreateExp 0 0 false)
        ⟨7, 0, ⟨7, 1, 1, 1, 1, 1, 1, 0⟩, 1, [0, 0, 0], [1, 0, 0], none,
          [7], 2, 1, true⟩
        ⟨7, 0, none, none, none⟩ = .InvalidOperation ∧
    urCommandBufferUpdateKernelLaunchExp (urCommandBufferCreateExp 0 0 false)
        ⟨7, 0, ⟨7, 1, 1, 1, 1, 1, 1, 0⟩, 1, [0, 0, 0], [1, 0, 0], none,
          [7], 2, 1, true⟩
        ⟨7, 0, none, none, none⟩ 0 = .error .InvalidOperation ∧
    validateCommandDesc
        { urCommandBufferCreateExp 0 0 true with cudaGraphExec := true }
        ⟨9, 0, ⟨9, 1, 1, 1, 1, 1, 1, 0⟩, 1, [0, 0, 0], [1, 0, 0], none,
          [7], 2, 1, true⟩
        ⟨9, 0, none, none, none⟩ = .InvalidValue := by
  have h1 := (updateValidationFailureBehavior (urCommandBufferCreateExp 0 0 false)
    ⟨7, 0, ⟨7, 1, 1, 1, 1, 1, 1, 0⟩, 1, [0, 0, 0], [1, 0, 0], none,
      [7], 2, 1, true⟩ ⟨7, 0, none, none, none⟩ 0).1 (Or.inl rfl)
  have h2 := (updateValidationFailureBehavior (urCommandBufferCreateExp 0 0 false)
    ⟨7, 0, ⟨7, 1, 1, 1, 1, 1, 1, 0⟩, 1, [0, 0, 0], [1, 0, 0], none,
      [7], 2, 1, true⟩ ⟨7, 0, none, none, none⟩ 0).2.2
    .InvalidOperation h1 (by decide)
  have h3 := (updateValidationFailureBehavior
    { urCommandBufferCreateExp 0 0 true with cudaGraphExec := true }
    ⟨9, 0, ⟨9, 1, 1, 1, 1, 1, 1, 0⟩, 1, [0, 0, 0], [1, 0, 0], none,
      [7], 2, 1, true⟩ ⟨9, 0, none, none, none⟩ 0).2.1
    rfl rfl (by decide) (by decide) (by decide) (by decide) (by decide)
    (by decide) (by decide)
  exact ⟨h1, h2, h3⟩

/-- C9 (counterexample): an update on a finalized, updatable buffer that
requests work dimension 2 while the handle's stored dimension is 1 and
the new kernel equals the current kernel fails with `InvalidOperation`,
not `InvalidWorkDimension`, so the claim's first disjunct is false as
stated. -/
theorem dimensionMismatchIsInvalidOperation :
    validateCommandDesc
        { urCommandBufferCreateExp 0 0 true with cudaGraphExec := true }
        ⟨7, 0, ⟨7, 1, 1, 1, 1, 1, 1, 0⟩, 1, [0, 0, 0], [1, 0, 0], none,
          [7], 2, 1, true⟩
        ⟨7, 2, none, none, none⟩ = .InvalidOperation ∧
    UrResult.InvalidOperation ≠ UrResult.InvalidWorkDimension := by
  exact ⟨rfl, by decide⟩

/-- C9 (amended): given a finalized, updatable owning buffer, a requested
(nonzero) new work dimension of 4 or more fails with
`InvalidWorkDimension`; a requested in-range dimension that differs from
the handle's stored dimension while the new kernel equals the handle's
current kernel fails with `InvalidOperation` (not `InvalidWorkDimension`
as the spec states). -/
theorem updateWorkDimErrors (b : CmdBuffer) (c : CommandHandle)
    (d : UpdateDesc) (hexec : b.cudaGraphExec = true)
    (hupd : b.isUpdatable = true) :
    (4 ≤ d.newWorkDim →
      validateCommandDesc b c d = .InvalidWorkDimension) ∧
    (d.newWorkDim ≠ 0 → d.newWorkDim < 4 → d.newWorkDim ≠ c.workDim →
      c.kernel = d.hNewKernel →
      validateCommandDesc b c d = .InvalidOperation) := by
  constructor
  · intro hge
    have h1 : (d.newWorkDim == 0) = false := by
      simp only [beq_eq_false_iff_ne]; omega
    have h2 : (d.newWorkDim != 0) = true := by
      simp only [bne_iff_ne]; omega
    have h3 : d.newWorkDim > 0 := by omega
    have h4 : ¬(d.newWorkDim < 4) := by omega
    simp [validateCommandDesc, hexec, hupd, h1, h2, h3, h4]
  · intro hne hlt hmm hker
    have h2 : (d.newWorkDim != 0) = true := by
      simp only [bne_iff_ne]; exact hne
    have h1 : (d.newWorkDim == 0) = false := by
      simp only [beq_eq_false_iff_ne]; exact hne
    have h6 : (d.newWorkDim != c.workDim) = true := by
      simp only [bne_iff_ne]; exact hmm
    simp [validateCommandDesc, hexec, hupd, h1, h2, h6, hker, hne, hlt]

theorem updateWorkDimErrors_witness :
    validateCommandDesc
        { urCommandBufferCreateExp 0 0 true with cudaGraphExec := true }
        ⟨7, 0, ⟨7, 1, 1, 1, 1, 1, 1, 0⟩, 1, [0, 0, 0], [1, 0, 0], none,
          [7], 2, 1, true⟩
        ⟨7, 5, none, none, none⟩ = .InvalidWorkDimension ∧
    validateCommandDesc
        { urCommandBufferCreateExp 0 0 true with cudaGraphExec := true }
        ⟨7, 0, ⟨7, 1, 1, 1, 1, 1, 1, 0⟩, 1, [0, 0, 0], [1, 0, 0], none,
          [7], 2, 1, true⟩
        ⟨7, 2, none, none, none⟩ = .InvalidOperation :=
  ⟨(updateWorkDimErrors
      { urCommandBufferCreateExp 0 0 true with cudaGraphExec := true }
      ⟨7, 0, ⟨7, 1, 1, 1, 1, 1, 1, 0⟩, 1, [0, 0, 0], [1, 0, 0], none,
        [7], 2, 1, true⟩ ⟨7, 5, none, none, none⟩ rfl rfl).1 (by decide),
   (updateWorkDimErrors
      { urCommandBufferCreateExp 0 0 true with cudaGraphExec := true }
      ⟨7, 0, ⟨7, 1, 1, 1, 1, 1, 1, 0⟩, 1, [0, 0, 0], [1, 0, 0], none,
        [7], 2, 1, true⟩ ⟨7, 2, none, none, none⟩ rfl rfl).2 (by decide)
     (by decide) (by decide) rfl⟩

theorem commandBufferReleaseInternal_fields (b : CmdBuffer) :
    (commandBufferReleaseInternal b).refCountInternal
        = b.refCountInternal - 1 ∧
    (commandBufferReleaseInternal b).refCountExternal
        = b.refCountExternal ∧
    (commandBufferReleaseInternal b).commandHandles = b.commandHandles ∧
    (commandBufferReleaseInternal b).alive
        = (if b.refCountInternal - 1 = 0 then false else b.alive) := by
  simp only [commandBufferReleaseInternal]
  by_cases h : b.refCountInternal - 1 = 0
  · simp [h]
  · simp [h]

theorem releaseAllHandles_spec :
    ∀ (hs : List CommandHandle) (b : CmdBuffer),
      (releaseAllHandles hs b).2.refCountInternal
        = b.refCountInternal
          - (hs.filter (fun c => c.refCountInternal ≤ 1)).length ∧
      (releaseAllHandles hs b).2.refCountExternal = b.refCountExternal ∧
      (releaseAllHandles hs b).2.commandHandles = b.commandHandles ∧
      ((hs.filter (fun c => c.refCountInternal ≤ 1)).length
          < b.refCountInternal →
        (releaseAllHandles hs b).2.alive = b.alive) ∧
      ((releaseAllHandles hs b).2.alive = b.alive ∨
        ((releaseAllHandles hs b).2.refCountInternal = 0 ∧
          (releaseAllHandles hs b).2.alive = false)) := by
  intro hs
  induction hs with
  | nil =>
    intro b
    refine ⟨by simp [releaseAllHandles], by simp [releaseAllHandles],
      by simp [releaseAllHandles], ?_, Or.inl (by simp [releaseAllHandles])⟩
    intro _; simp [releaseAllHandles]
  | cons c rest ih =>
    intro b
    by_cases hc : c.refCountInternal ≤ 1
    · have hcz : c.refCountInternal - 1 = 0 := by omega
      have h2nd : (releaseAllHandles (c :: rest) b).2
          = (releaseAllHandles rest (commandBufferReleaseInternal b)).2 := by
        simp [releaseAllHandles, commandHandleReleaseInternal, hcz]
      obtain ⟨ih1, ih2, ih3, ih4, ih5⟩ :=
        ih (commandBufferReleaseInternal b)
      obtain ⟨hb1, hb2, hb3, hb4⟩ := commandBufferReleaseInternal_fields b
      have hfl : ((c :: rest).filter
            (fun x => decide (x.refCountInternal ≤ 1))).length
          = (rest.filter
              (fun x => decide (x.refCountInternal ≤ 1))).length + 1 := by
        simp [List.filter_cons, hc]
      rw [h2nd, hfl]
      refine ⟨?_, ?_, ?_, ?_, ?_⟩
      · rw [ih1, hb1]; omega
      · rw [ih2, hb2]
      · rw [ih3, hb3]
      · intro hlt
        have hne : b.refCountInternal - 1 ≠ 0 := by omega
        rw [ih4 (by omega), hb4]
        simp [hne]
      · rcases ih5 with h | h
        · by_cases hz : b.refCountInternal - 1 = 0
          · right
            refine ⟨by rw [ih1, hb1]; omega, by rw [h, hb4]; simp [hz]⟩
          · left
            rw [h, hb4]
            simp [hz]
        · right
          exact h
    · have hcz : c.refCountInternal - 1 ≠ 0 := by omega
      have h2nd : (releaseAllHandles (c :: rest) b).2
          = (releaseAllHandles rest b).2 := by
        simp [releaseAllHandles, commandHandleReleaseInternal, hcz]
      have hfl : ((c :: rest).filter
            (fun x => decide (x.refCountInternal ≤ 1))).length
          = (rest.filter
              (fun x => decide (x.refCountInternal ≤ 1))).length := by
        simp [List.filter_cons, hc]
      rw [h2nd, hfl]
      exact ih b

theorem filter_length_lt_of_exists_not :
    ∀ (l : List CommandHandle), (∃ c ∈ l, ¬(c.refCountInternal ≤ 1)) →
      (l.filter (fun x => decide (x.refCountInternal ≤ 1))).length
        < l.length := by
  intro l
  induction l with
  | nil => rintro ⟨c, hc, _⟩; simp at hc
  | cons c rest ih =>
    rintro ⟨w, hw, hnw⟩
    rcases List.mem_cons.mp hw with rfl | hmem
    · have h1 : ((w :: rest).filter
            (fun x => decide (x.refCountInternal ≤ 1)))
          = rest.filter (fun x => decide (x.refCountInternal ≤ 1)) := by
        simp [List.filter_cons, hnw]
      rw [h1]
      have h2 := List.length_filter_le
        (fun x => decide (x.refCountInternal ≤ 1)) rest
      simp only [List.length_cons]
      omega
    · by_cases hcp : c.refCountInternal ≤ 1
      · have h1 : ((c :: rest).filter
              (fun x => decide (x.refCountInternal ≤ 1)))
            = c :: rest.filter (fun x => decide (x.refCountInternal ≤ 1))
            := by
          simp [List.filter_cons, hcp]
        rw [h1]
        simp only [List.length_cons]
        have h2 := ih ⟨w, hmem, hnw⟩
        omega
      · have h1 : ((c :: rest).filter
              (fun x => decide (x.refCountInternal ≤ 1)))
            = rest.filter (fun x => decide (x.refCountInternal ≤ 1)) := by
          simp [List.filter_cons, hcp]
        rw [h1]
        have h2 := List.length_filter_le
          (fun x => decide (x.refCountInternal ≤ 1)) rest
        simp only [List.length_cons]
        omega

theorem urCommandBufferReleaseExp_eq_zero (b : CmdBuffer)
    (h : b.refCountExternal - 1 = 0) :
    urCommandBufferReleaseExp b
      = commandBufferReleaseInternal
          { (releaseAllHandles b.commandHandles
              { b with refCountExternal := b.refCountExternal - 1 }).2 with
            commandHandles := (releaseAllHandles b.commandHandles
              { b with refCountExternal := b.refCountExternal - 1 }).1 }
    := by
  simp [urCommandBufferReleaseExp, h]

theorem urCommandBufferReleaseExp_eq_pos (b : CmdBuffer)
    (h : b.refCountExternal - 1 ≠ 0) :
    urCommandBufferReleaseExp b
      = commandBufferReleaseInternal
          { b with refCountExternal := b.refCountExternal - 1 } := by
  simp [urCommandBufferReleaseExp, h]

/-- C6: releasing the last external reference of a buffer while at least
one of its CommandHandles is still externally held (handle internal ref
count at least 2, i.e. the handle's own external reference keeps one
extra internal count) does NOT destroy the buffer; and in general a
release destroys the buffer only when both its internal and external
reference counts have reached zero.  The internal-count hypothesis is
the construction invariant: one internal reference for the external
lifetime plus one per owned handle. -/
theorem releaseWithLiveHandleKeepsBuffer (b : CmdBuffer) :
    (b.alive = true → b.refCountExternal = 1 →
      b.refCountInternal = 1 + b.commandHandles.length →
      (∃ c ∈ b.commandHandles, 2 ≤ c.refCountInternal) →
      (urCommandBufferReleaseExp b).alive = true) ∧
    (b.refCountExternal ≤ b.refCountInternal → b.alive = true →
      (urCommandBufferReleaseExp b).alive = false →
      (urCommandBufferReleaseExp b).refCountInternal = 0 ∧
        (urCommandBufferReleaseExp b).refCountExternal = 0) := by
  constructor
  · intro halive hext hint hsome
    rw [urCommandBufferReleaseExp_eq_zero b (by omega)]
    obtain ⟨r1, r2, r3, r4, r5⟩ := releaseAllHandles_spec b.commandHandles
      { b with refCountExternal := b.refCountExternal - 1 }
    have hB2i : ({ b with refCountExternal := b.refCountExternal - 1 }
        : CmdBuffer).refCountInternal = b.refCountInternal := rfl
    have hflt := filter_length_lt_of_exists_not b.commandHandles
      (by obtain ⟨c, hc, h2⟩ := hsome; exact ⟨c, hc, by omega⟩)
    obtain ⟨f1, f2, f3, f4⟩ := commandBufferReleaseInternal_fields
      { (releaseAllHandles b.commandHandles
          { b with refCountExternal := b.refCountExternal - 1 }).2 with
        commandHandles := (releaseAllHandles b.commandHandles
          { b with refCountExternal := b.refCountExternal - 1 }).1 }
    rw [f4]
    have hX : ({ (releaseAllHandles b.commandHandles
        { b with refCountExternal := b.refCountExternal - 1 }).2 with
        commandHandles := (releaseAllHandles b.commandHandles
          { b with refCountExternal := b.refCountExternal - 1 }).1 }
        : CmdBuffer).refCountInternal
        = (releaseAllHandles b.commandHandles
            { b with refCountExternal := b.refCountExternal - 1 }).2.refCountInternal
        := rfl
    have hXa : ({ (releaseAllHandles b.commandHandles
        { b with refCountExternal := b.refCountExternal - 1 }).2 with
        commandHandles := (releaseAllHandles b.commandHandles
          { b with refCountExternal := b.refCountExternal - 1 }).1 }
        : CmdBuffer).alive
        = (releaseAllHandles b.commandHandles
            { b with refCountExternal := b.refCountExternal - 1 }).2.alive
        := rfl
    rw [hX, hXa, r1, hB2i]
    have hne : b.refCountInternal
        - (b.commandHandles.filter
            (fun x => decide (x.refCountInternal ≤ 1))).length - 1
        ≠ 0 := by omega
    simp only [hne, if_false]
    rw [r4 (by rw [hB2i]; omega)]
    exact halive
  · intro hge halive hdead
    by_cases hz : b.refCountExternal - 1 = 0
    · rw [urCommandBufferReleaseExp_eq_zero b hz] at hdead ⊢
      obtain ⟨r1, r2, r3, r4, r5⟩ := releaseAllHandles_spec b.commandHandles
        { b with refCountExternal := b.refCountExternal - 1 }
      have hB2i : ({ b with refCountExternal := b.refCountExternal - 1 }
          : CmdBuffer).refCountInternal = b.refCountInternal := rfl
      have hB2e : ({ b with refCountExternal := b.refCountExternal - 1 }
          : CmdBuffer).refCountExternal = b.refCountExternal - 1 := rfl
      have hB2a : ({ b with refCountExternal := b.refCountExternal - 1 }
          : CmdBuffer).alive = b.alive := rfl
      obtain ⟨f1, f2, f3, f4⟩ := commandBufferReleaseInternal_fields
        { (releaseAllHandles b.commandHandles
            { b with refCountExternal := b.refCountExternal - 1 }).2 with
          commandHandles := (releaseAllHandles b.commandHandles
            { b with refCountExternal := b.refCountExternal - 1 }).1 }
      have hX : ({ (releaseAllHandles b.commandHandles
          { b with refCountExternal := b.refCountExternal - 1 }).2 with
          commandHandles := (releaseAllHandles b.commandHandles
            { b with refCountExternal := b.refCountExternal - 1 }).1 }
          : CmdBuffer).refCountInternal
          = (releaseAllHandles b.commandHandles
              { b with refCountExternal := b.refCountExternal - 1 }).2.refCountInternal
          := rfl
      have hXe : ({ (releaseAllHandles b.commandHandles
          { b with refCountExternal := b.refCountExternal - 1 }).2 with
          commandHandles := (releaseAllHandles b.commandHandles
            { b with refCountExternal := b.refCountExternal - 1 }).1 }
          : CmdBuffer).refCountExternal
          = (releaseAllHandles b.commandHandles
              { b with refCountExternal := b.refCountExternal - 1 }).2.refCountExternal
          := rfl
      have hXa : ({ (releaseAllHandles b.commandHandles
          { b with refCountExternal := b.refCountExternal - 1 }).2 with
          commandHandles := (releaseAllHandles b.commandHandles
            { b with refCountExternal := b.refCountExternal - 1 }).1 }
          : CmdBuffer).alive
          = (releaseAllHandles b.commandHandles
              { b with refCountExternal := b.refCountExternal - 1 }).2.alive
          := rfl
      rw [f4, hX, hXa] at hdead
      refine ⟨?_, ?_⟩
      · rw [f1, hX, r1, hB2i]
        by_cases hy : (releaseAllHandles b.commandHandles
            { b with refCountExternal := b.refCountExternal - 1 }).2.refCountInternal - 1 = 0
        · rw [r1, hB2i] at hy; omega
        · simp only [r1, hB2i] at hy
          simp only [r1, hB2i, hy, if_false] at hdead
          rcases r5 with h5 | h5
          · rw [h5, hB2a] at hdead
            exact absurd halive (by simp [hdead])
          · rw [r1, hB2i] at h5
            omega
      · rw [f2, hXe, r2, hB2e, hz]
    · rw [urCommandBufferReleaseExp_eq_pos b hz] at hdead ⊢
      obtain ⟨f1, f2, f3, f4⟩ := commandBufferReleaseInternal_fields
        { b with refCountExternal := b.refCountExternal - 1 }
      have hB2i : ({ b with refCountExternal := b.refCountExternal - 1 }
          : CmdBuffer).refCountInternal = b.refCountInternal := rfl
      have hB2a : ({ b with refCountExternal := b.refCountExternal - 1 }
          : CmdBuffer).alive = b.alive := rfl
      rw [f4, hB2i, hB2a] at hdead
      have hni : b.refCountInternal - 1 ≠ 0 := by omega
      simp only [hni, if_false] at hdead
      exact absurd halive (by simp [hdead])

theorem releaseWithLiveHandleKeepsBuffer_witness :
    (urCommandBufferReleaseExp
      { urCommandBufferCreateExp 0 0 true with
          refCountInternal := 2,
          commandHandles :=
            [⟨1, 0, ⟨1, 1, 1, 1, 32, 1, 1, 0⟩, 1, [0, 0, 0], [8, 0, 0],
              none, [1], 2, 1, true⟩] }).alive = true := by
  have h := (releaseWithLiveHandleKeepsBuffer
    { urCommandBufferCreateExp 0 0 true with
        refCountInternal := 2,
        commandHandles :=
          [⟨1, 0, ⟨1, 1, 1, 1, 32, 1, 1, 0⟩, 1, [0, 0, 0], [8, 0, 0],
            none, [1], 2, 1, true⟩] }).1 rfl rfl (by decide)
    ⟨⟨1, 0, ⟨1, 1, 1, 1, 32, 1, 1, 0⟩, 1, [0, 0, 0], [8, 0, 0],
      none, [1], 2, 1, true⟩, by decide, by decide⟩
  exact h

/-- C10: on a live buffer (both counters at least 1), a Retain increments
both the external and internal counters, and an immediately following
Release restores the exact previous state: both counters as before,
nothing destroyed, no CommandHandle released (the handle-release loop is
skipped because the external count stays positive). -/
theorem retainThenReleaseRestoresState (b : CmdBuffer)
    (hext : 1 ≤ b.refCountExternal) (hint : 1 ≤ b.refCountInternal) :
    (urCommandBufferRetainExp b).refCountExternal
      = b.refCountExternal + 1 ∧
    (urCommandBufferRetainExp b).refCountInternal
      = b.refCountInternal + 1 ∧
    urCommandBufferReleaseExp (urCommandBufferRetainExp b) = b := by
  refine ⟨rfl, rfl, ?_⟩
  have hpos : (urCommandBufferRetainExp b).refCountExternal - 1 ≠ 0 := by
    simp only [urCommandBufferRetainExp]
    omega
  rw [urCommandBufferReleaseExp_eq_pos _ hpos]
  have h2 : b.refCountInternal + 1 - 1 = b.refCountInternal := by omega
  have h3 : ¬(b.refCountInternal = 0) := by omega
  have h4 : b.refCountExternal + 1 - 1 = b.refCountExternal := by omega
  simp [urCommandBufferRetainExp, commandBufferReleaseInternal, h2, h3, h4]

theorem retainThenReleaseRestoresState_witness :
    urCommandBufferReleaseExp
        (urCommandBufferRetainExp (urCommandBufferCreateExp 0 0 false))
      = urCommandBufferCreateExp 0 0 false :=
  (retainThenReleaseRestoresState (urCommandBufferCreateExp 0 0 false)
    (by decide) (by decide)).2.2
